import Mathlib

/-!
Verification of the stats-cache core of the koinos-assessment repository
(`backend/src/utils/stats.js` and the stats route), shallowly embedded in Lean.

Modelling conventions:
* JavaScript values that can appear as a record's `price` are modelled by
  `JVal`: an exact rational (`num`), `NaN` (`nan`), `undefined` (`undef`,
  the value of `item.price` when the field is absent), JSON `null`, and
  booleans.  JS `+` and `/` convert these with ToNumber (`null → 0`,
  `true → 1`, `false → 0`, `undefined` and `NaN` → `NaN`, `NaN`
  absorbing).  String-valued prices — and arrays/objects, which enter `+`
  as their string form — make JS `+` concatenate text instead of adding;
  they are outside the model's price domain, and no theorem below relies
  on their absence: the conclusions about a `NaN` average explicitly
  hypothesise an `undefined`/`NaN` price (for which JS also yields `NaN`
  when strings are present, since a sum string containing `undefined` or
  `NaN` never re-parses as a number), and the no-error / `total`-count
  statements hold for every JS price value alike.  The only division the
  code can perform with a zero divisor is `0/0` (in `mean []`), which is
  `NaN` in JS, as in the model.
* `fs.readFile` + `JSON.parse` are modelled by a `ReadResult`: either the
  parsed list of records, or an I/O / parse error carrying a message.
* The module-level mutable variables `statsCache` and `debounceTimer` form
  the `CacheState`.  The `fs.watch` callback plus the debounce timer are
  given a discrete-event semantics (`runEvents`): a run is a time-ordered
  list of watcher notifications `(time, eventType)`; `readAt t` is the file
  content that `calculateStats` reads if the debounce timer fires at time
  `t`; after the last notification the run waits long enough for any
  pending timer to fire.  The returned list collects the times at which the
  aggregator (`calculateStats`) was invoked by the timer.
-/

namespace StatsJS

/-- A JSON-expressible value of a record's `price` field as it enters JS
arithmetic: an exact rational, `NaN`, `undefined` (absent field), JSON
`null`, or a boolean.  Strings (and arrays/objects, which `+` first turns
into strings) trigger string concatenation instead of numeric addition and
are outside this model; no theorem here depends on their absence. -/
inductive JVal where
  | num (q : ℚ)
  | nan
  | undef
  | null
  | bool (b : Bool)
deriving DecidableEq, Repr

/-- JS ToNumber on the modelled values (`none` encodes `NaN`): numbers map
to themselves, `null → 0`, `true → 1`, `false → 0`, and `NaN` and
`undefined` map to `NaN`. -/
def JVal.toNumber : JVal → Option ℚ
  | .num q => some q
  | .nan => none
  | .undef => none
  | .null => some 0
  | .bool b => some (if b then 1 else 0)

/-- JS `+` on the modelled (non-string) values: both operands are converted
with ToNumber and added; a `NaN` on either side makes the result `NaN`. -/
def JVal.add (a b : JVal) : JVal :=
  match a.toNumber, b.toNumber with
  | some x, some y => .num (x + y)
  | _, _ => .nan

/-- JS `/` on the modelled values: both operands are converted with
ToNumber; a zero divisor can only be reached in this code as `0/0`, which
is `NaN` in JS; a `NaN` operand gives `NaN`. -/
def JVal.div (a b : JVal) : JVal :=
  match a.toNumber, b.toNumber with
  | some x, some y => if y = 0 then .nan else .num (x / y)
  | _, _ => .nan

/-- One catalog record; only the `price` field is relevant to the stats
core.  `price` is `undef` when the record lacks the field. -/
structure Record where
  price : JVal
deriving DecidableEq, Repr

/-- The Stats value: `{ total, averagePrice }`.  `total` is the array
length, hence a natural number. -/
structure Stats where
  total : ℕ
  averagePrice : JVal
deriving DecidableEq, Repr

/-- `mean(arr)` from stats.js: `arr.reduce((a, b) => a + b, 0) / arr.length`. -/
def mean (arr : List JVal) : JVal :=
  (arr.foldl JVal.add (JVal.num 0)).div (JVal.num (arr.length : ℚ))

/-- The aggregation body of `calculateStats` applied to the parsed items:
`if (items.length === 0) return { total: 0, averagePrice: 0 };` then
`{ total: items.length, averagePrice: mean(items.map(i => i.price)) }`. -/
def statsOfItems (items : List Record) : Stats :=
  if items.length = 0 then ⟨0, JVal.num 0⟩
  else ⟨items.length, mean (items.map Record.price)⟩

/-- Result of `fs.readFile` + `JSON.parse` on the data file: the parsed
records, or a read / parse failure with its message. -/
inductive ReadResult where
  | ok (items : List Record)
  | ioError (msg : String)
deriving DecidableEq, Repr

/-- `calculateStats` from stats.js as a function of what the file read
yields.  A read / parse failure is re-thrown by the `catch` block
(propagated unchanged); a successful parse always produces a Stats value. -/
def calculateStats : ReadResult → Except String Stats
  | .ok items => .ok (statsOfItems items)
  | .ioError msg => .error msg

/-- The module-level mutable state of stats.js: `statsCache` (initially
`null`) and `debounceTimer` (modelled as the absolute time at which the
pending timer fires, `none` when no timer is pending). -/
structure CacheState where
  statsCache : Option Stats
  debounceTimer : Option ℕ
deriving DecidableEq, Repr

/-- State at module load: `statsCache = null`, no pending timer. -/
def initialState : CacheState := ⟨none, none⟩

/-- `getStats()`: returns the cached stats object, `null` if never set. -/
def getStats (st : CacheState) : Option Stats :=
  st.statsCache

/-- The debounce delay: `setTimeout(..., 300)`. -/
def delay : ℕ := 300

/-- The `fs.watch` callback body acting on the timer: on a `'change'` event
at time `t` it does `clearTimeout(debounceTimer)` and re-arms the timer to
fire at `t + 300`; any other event type leaves the timer untouched. -/
def watchCallback (eventType : String) (t : ℕ) (timer : Option ℕ) : Option ℕ :=
  if eventType = "change" then some (t + delay) else timer

/-- The debounced timer body firing at time `f`:
`try { statsCache = await calculateStats(); } catch (err) { console.error }`.
On success the cache is overwritten; on failure it is left unchanged. -/
def handleFire (readAt : ℕ → ReadResult) (f : ℕ) (cache : Option Stats) : Option Stats :=
  match calculateStats (readAt f) with
  | .ok s => some s
  | .error _ => cache

/-- Discrete-event run of the watcher.  Arguments: the cache slot, the
pending-timer slot, and the remaining time-ordered notifications.  A
pending timer due at `f` fires before a notification arriving at `t ≥ f`
and at the quiet end of the run; a `'change'` notification arriving
strictly before `f` cancels and re-arms the timer (pure debounce).
Returns the final state and the list of aggregator invocation times. -/
def runEvents (readAt : ℕ → ReadResult) :
    Option Stats → Option ℕ → List (ℕ × String) → CacheState × List ℕ
  | cache, none, [] => (⟨cache, none⟩, [])
  | cache, some f, [] => (⟨handleFire readAt f cache, none⟩, [f])
  | cache, none, (t, ev) :: rest =>
      runEvents readAt cache (watchCallback ev t none) rest
  | cache, some f, (t, ev) :: rest =>
      if f ≤ t then
        let res := runEvents readAt (handleFire readAt f cache) (watchCallback ev t none) rest
        (res.1, f :: res.2)
      else
        runEvents readAt cache (watchCallback ev t (some f)) rest

/-- `initStatsCache` (minus the watcher wiring, modelled by `runEvents`):
one non-debounced `calculateStats` run; on success `statsCache` is
assigned; on failure the `catch` block re-throws, leaving the state as it
was.  Returns the new state and the outcome surfaced to the caller. -/
def initStatsCache (r : ReadResult) (st : CacheState) : CacheState × Except String Unit :=
  match calculateStats r with
  | .ok s => (⟨some s, st.debounceTimer⟩, .ok ())
  | .error e => (st, .error e)

/-- Response of the stats route: a JSON body with a status, or an error
status produced by the error-handling middleware from the thrown error. -/
inductive HttpResponse where
  | json (status : ℕ) (body : Stats)
  | errorStatus (status : ℕ) (msg : String)
deriving DecidableEq, Repr

/-- `GET /api/stats`: reads `getStats()`; a `null` cache makes the handler
throw an error with `status = 503`, which the route catches and forwards
(`next(err)`); otherwise it serves the cached value as JSON. -/
def statsRoute (st : CacheState) : HttpResponse :=
  match getStats st with
  | some s => .json 200 s
  | none => .errorStatus 503 "Stats not initialized"

/-- A burst of `'change'` notifications at the given times. -/
def burstEvents (ts : List ℕ) : List (ℕ × String) :=
  ts.map (fun t => (t, "change"))

/-- A sequence of `'rename'` notifications at the given times. -/
def renameEvents (ts : List ℕ) : List (ℕ × String) :=
  ts.map (fun t => (t, "rename"))

/-- The Stats invariant of the spec: `total` is an integer `≥ 0`, a zero
`total` forces `averagePrice = 0`, and a nonzero `total` forces
`averagePrice` to be the JS sum of the price list of some record set of
size `total`, divided by `total`. -/
def statsInvariant (s : Stats) : Prop :=
  (0 : ℤ) ≤ (s.total : ℤ) ∧
  (s.total = 0 → s.averagePrice = JVal.num 0) ∧
  (s.total ≠ 0 → ∃ prices : List JVal, prices.length = s.total ∧
      s.averagePrice = (prices.foldl JVal.add (JVal.num 0)).div (JVal.num (s.total : ℚ)))

/-- The cache slot only ever holds Stats values satisfying the invariant. -/
def cacheInv (c : Option Stats) : Prop :=
  ∀ s, c = some s → statsInvariant s

lemma add_num_num (a b : ℚ) : JVal.add (.num a) (.num b) = .num (a + b) := rfl

lemma div_num_num (a b : ℚ) :
    JVal.div (.num a) (.num b) = if b = 0 then .nan else .num (a / b) := rfl

lemma add_none_left (a y : JVal) (h : a.toNumber = none) : JVal.add a y = JVal.nan := by
  unfold JVal.add
  rw [h]

lemma add_none_right (a y : JVal) (h : y.toNumber = none) : JVal.add a y = JVal.nan := by
  unfold JVal.add
  rw [h]
  cases ha : a.toNumber <;> rfl

lemma div_none_left (a b : JVal) (h : a.toNumber = none) : JVal.div a b = JVal.nan := by
  unfold JVal.div
  rw [h]

lemma foldl_add_map_num (qs : List ℚ) : ∀ a : ℚ,
    (qs.map JVal.num).foldl JVal.add (JVal.num a) = JVal.num (a + qs.sum) := by
  induction qs with
  | nil => intro a; simp
  | cons q qs ih =>
      intro a
      simp only [List.map_cons, List.foldl_cons, add_num_num, List.sum_cons]
      rw [ih (a + q)]
      congr 1
      ring

lemma foldl_add_nan (l : List JVal) : l.foldl JVal.add JVal.nan = JVal.nan := by
  induction l with
  | nil => rfl
  | cons x xs ih => simpa [add_none_left JVal.nan x rfl] using ih

lemma foldl_add_absorb (l : List JVal) : ∀ a : JVal, (∃ x ∈ l, x.toNumber = none) →
    l.foldl JVal.add a = JVal.nan := by
  induction l with
  | nil => intro a h; simp at h
  | cons y ys ih =>
      intro a h
      obtain ⟨x, hx, hnx⟩ := h
      rcases List.mem_cons.mp hx with rfl | hmem
      · simp only [List.foldl_cons, add_none_right a x hnx]
        exact foldl_add_nan ys
      · exact ih (JVal.add a y) ⟨x, hmem, hnx⟩

/-- Claim C1: for every record set with `N ≥ 1` records whose prices are all
numeric (price list `qs`), `calculateStats` returns a Stats value with
`total = N` and `averagePrice` equal to the arithmetic mean of the prices. -/
theorem calculateStats_mean_correct (items : List Record) (qs : List ℚ)
    (hq : items.map Record.price = qs.map JVal.num) (h : items ≠ []) :
    calculateStats (.ok items) =
      .ok ⟨items.length, JVal.num (qs.sum / (items.length : ℚ))⟩ := by
  have hlen : items.length = qs.length := by
    have := congrArg List.length hq
    simpa using this
  have hlen0 : items.length ≠ 0 := by
    simpa [List.length_eq_zero] using h
  simp only [calculateStats, statsOfItems, if_neg hlen0, mean, hq]
  rw [foldl_add_map_num qs 0]
  have hcast : ((items.map Record.price).length : ℚ) = (items.length : ℚ) := by simp
  rw [hq] at hcast
  rw [hcast]
  simp only [div_num_num, zero_add]
  rw [if_neg (by exact_mod_cast hlen0)]

/-- Claim C1 witness: the spec scenario `[{price:10},{price:20},{price:30}]`
yields `{total: 3, averagePrice: 20}`. -/
theorem calculateStats_mean_correct_witness :
    calculateStats (.ok [⟨JVal.num 10⟩, ⟨JVal.num 20⟩, ⟨JVal.num 30⟩]) =
      .ok ⟨3, JVal.num 20⟩ := by
  have h := calculateStats_mean_correct
    [⟨JVal.num 10⟩, ⟨JVal.num 20⟩, ⟨JVal.num 30⟩] [10, 20, 30] (by simp) (by simp)
  rw [h]
  norm_num

/-- Claim C2: on the empty record set `calculateStats` returns exactly
`{total: 0, averagePrice: 0}`, and whenever the guard lets execution reach
the `mean` call the array handed to `mean` is nonempty, so `mean` never
divides by a zero length there. -/
theorem calculateStats_empty_safe :
    calculateStats (.ok []) = .ok ⟨0, JVal.num 0⟩ ∧
    ∀ items : List Record, items ≠ [] → items.map Record.price ≠ [] := by
  refine ⟨rfl, ?_⟩
  intro items h
  simpa using h

/-- Claim C2 witness: instantiates the nonempty-argument conjunct at a
concrete one-record set. -/
theorem calculateStats_empty_safe_witness :
    calculateStats (.ok []) = .ok ⟨0, JVal.num 0⟩ ∧
    ([⟨JVal.num 1⟩] : List Record).map Record.price ≠ [] :=
  ⟨calculateStats_empty_safe.1, calculateStats_empty_safe.2 [⟨JVal.num 1⟩] (by simp)⟩

/-- Claim C3 counterexample: a one-record set whose record lacks a usable
numeric price (`price` is `undefined`).  `calculateStats` does NOT fail:
JS arithmetic silently turns the missing price into `NaN` and the function
returns `{total: 1, averagePrice: NaN}` — an `ok` result, not an error. -/
theorem calculateStats_missing_price_cex :
    calculateStats (.ok [⟨JVal.undef⟩]) = .ok ⟨1, JVal.nan⟩ := rfl

/-- Claim C3 amended: `calculateStats` does not fail when a record lacks a
usable numeric price — for every parsed record set it returns an `ok`
Stats value (never an error) whose `total` is the record count; only a
read / parse failure of the backing file itself propagates as an error.
The prices flow through JS coercion arithmetic, and at the
counterexample's kind of failure — a price that is `undefined` (absent)
or `NaN` — the returned `averagePrice` is `NaN`. -/
theorem calculateStats_never_DataError (items : List Record) :
    calculateStats (.ok items) = .ok (statsOfItems items) ∧
    (statsOfItems items).total = items.length ∧
    (∀ e, calculateStats (.ok items) ≠ .error e) ∧
    (∀ r, r ∈ items → r.price.toNumber = none →
      (statsOfItems items).averagePrice = JVal.nan) := by
  refine ⟨rfl, ?_, fun e h => Except.noConfusion h, ?_⟩
  · unfold statsOfItems
    by_cases h : items.length = 0
    · simp [h]
    · simp [h]
  · intro r hmem hnone
    have hlen0 : items.length ≠ 0 := by
      have : items ≠ [] := by rintro rfl; simp at hmem
      simpa [List.length_eq_zero] using this
    unfold statsOfItems
    rw [if_neg hlen0]
    show mean (items.map Record.price) = JVal.nan
    unfold mean
    rw [foldl_add_absorb _ _ ⟨r.price, List.mem_map_of_mem Record.price hmem, hnone⟩]
    exact div_none_left _ _ rfl

/-- Claim C3 amended witness: a two-record set where the second record has
no price field yields an `ok` Stats with `averagePrice = NaN`. -/
theorem calculateStats_never_DataError_witness :
    calculateStats (.ok [⟨JVal.num 5⟩, ⟨JVal.undef⟩]) =
      .ok (statsOfItems [⟨JVal.num 5⟩, ⟨JVal.undef⟩]) ∧
    (statsOfItems [⟨JVal.num 5⟩, ⟨JVal.undef⟩]).averagePrice = JVal.nan :=
  ⟨(calculateStats_never_DataError [⟨JVal.num 5⟩, ⟨JVal.undef⟩]).1,
   (calculateStats_never_DataError [⟨JVal.num 5⟩, ⟨JVal.undef⟩]).2.2.2 ⟨JVal.undef⟩
     (by simp) rfl⟩

/-- JS coercion sanity check, not a claim: a `null` price is coerced to
`0` by `+`, so `[{price: 20}, {price: null}]` yields the numeric average
`10`, not `NaN` and not an error. -/
lemma null_price_coerces_to_zero :
    calculateStats (.ok [⟨JVal.num 20⟩, ⟨JVal.null⟩]) = .ok ⟨2, JVal.num 10⟩ := by
  norm_num [calculateStats, statsOfItems, mean, JVal.add, JVal.div, JVal.toNumber]

/-- JS coercion sanity check, not a claim: a boolean `true` price is
coerced to `1` by `+`, again yielding a numeric average. -/
lemma bool_price_coerces_to_one :
    calculateStats (.ok [⟨JVal.bool true⟩]) = .ok ⟨1, JVal.num 1⟩ := by
  norm_num [calculateStats, statsOfItems, mean, JVal.add, JVal.div, JVal.toNumber]

lemma burstEvents_cons (t : ℕ) (ts : List ℕ) :
    burstEvents (t :: ts) = (t, "change") :: burstEvents ts := rfl

lemma renameEvents_cons (t : ℕ) (ts : List ℕ) :
    renameEvents (t :: ts) = (t, "rename") :: renameEvents ts := rfl

lemma runEvents_burst_pending (readAt : ℕ → ReadResult) (cache : Option Stats) :
    ∀ (rest : List ℕ) (t : ℕ),
      List.Chain (fun a b => a < b ∧ b < a + delay) t rest →
      (runEvents readAt cache (some (t + delay)) (burstEvents rest)).2 =
        [rest.getLastD t + delay] := by
  intro rest
  induction rest with
  | nil =>
      intro t _
      simp [burstEvents, runEvents, List.getLastD]
  | cons u us ih =>
      intro t hch
      obtain ⟨⟨_, hlt⟩, hch2⟩ := List.chain_cons.mp hch
      rw [burstEvents_cons]
      simp only [runEvents, watchCallback, eq_self_iff_true, if_true]
      rw [if_neg (by omega)]
      rw [ih u hch2, List.getLastD_cons]

/-- Claim C4: a burst of `K ≥ 1` `'change'` notifications, each arriving
strictly less than `delay` (300) time units after the previous one, yields
exactly one aggregator invocation, fired `delay` units after the last
notification of the burst; each earlier pending timer is cancelled and
re-armed by the next notification. -/
theorem debounce_burst_single_fire (readAt : ℕ → ReadResult) (cache : Option Stats)
    (t : ℕ) (rest : List ℕ)
    (h : List.Chain (fun a b => a < b ∧ b < a + delay) t rest) :
    (runEvents readAt cache none (burstEvents (t :: rest))).2 =
      [rest.getLastD t + delay] := by
  rw [burstEvents_cons]
  simp only [runEvents, watchCallback, eq_self_iff_true, if_true]
  exact runEvents_burst_pending readAt cache rest t h

/-- Claim C4 witness: three `'change'` notifications at times 0, 50, 100
(gaps of 50 < 300) produce exactly one invocation, at time 400 = 100 + 300. -/
theorem debounce_burst_single_fire_witness :
    (runEvents (fun _ => ReadResult.ok []) none none (burstEvents [0, 50, 100])).2 =
      [400] := by
  have h := debounce_burst_single_fire (fun _ => ReadResult.ok []) none 0 [50, 100]
    (by simp [List.chain_cons, delay])
  simpa [List.getLastD, delay] using h

/-- Claim C10: the watcher callback only schedules a recompute for
`'change'` events: a `'rename'` notification leaves the debounce timer
exactly as it was, and a run consisting solely of `'rename'` notifications
starting from an idle trigger performs no aggregator invocation and never
enters the pending-recompute state. -/
theorem rename_never_schedules (readAt : ℕ → ReadResult) (cache : Option Stats) :
    (∀ (t : ℕ) (timer : Option ℕ), watchCallback "rename" t timer = timer) ∧
    ∀ ts : List ℕ, runEvents readAt cache none (renameEvents ts) = (⟨cache, none⟩, []) := by
  constructor
  · intro t timer
    simp [watchCallback]
  · intro ts
    induction ts with
    | nil => simp [renameEvents, runEvents]
    | cons u us ih =>
        rw [renameEvents_cons]
        simp only [runEvents, watchCallback]
        rw [if_neg (by decide)]
        exact ih

/-- Claim C5: when the aggregator run of a debounced recompute fails, the
timer body's `catch` swallows the error (the run still returns a state, so
the process does not crash), the cache slot is left unchanged, and
`getStats()` afterwards still returns the last successfully computed
value. -/
theorem recompute_failure_keeps_cache (readAt : ℕ → ReadResult) (f : ℕ)
    (cache : Option Stats) (e : String)
    (h : calculateStats (readAt f) = .error e) :
    handleFire readAt f cache = cache ∧
    runEvents readAt cache (some f) [] = (⟨cache, none⟩, [f]) ∧
    getStats (runEvents readAt cache (some f) []).1 = cache := by
  have hh : handleFire readAt f cache = cache := by
    simp [handleFire, h]
  exact ⟨hh, by simp [runEvents, hh], by simp [runEvents, hh, getStats]⟩

/-- Claim C5 witness: a failing read during the recompute fired at time 300
leaves the previously cached `{total: 3, averagePrice: 20}` in place. -/
theorem recompute_failure_keeps_cache_witness :
    handleFire (fun _ => ReadResult.ioError "ENOENT") 300 (some ⟨3, JVal.num 20⟩) =
      some ⟨3, JVal.num 20⟩ :=
  (recompute_failure_keeps_cache (fun _ => ReadResult.ioError "ENOENT") 300
    (some ⟨3, JVal.num 20⟩) "ENOENT" rfl).1

/-- Claim C6: `initStatsCache` performs one non-debounced aggregator run;
on success it populates the cache slot with the computed value, and on
failure it re-throws the error and leaves the state untouched, so serving
never starts from an uninitialized cache. -/
theorem initStatsCache_spec (r : ReadResult) (st : CacheState) :
    (∀ s, calculateStats r = .ok s →
      initStatsCache r st = (⟨some s, st.debounceTimer⟩, .ok ()) ∧
      getStats (initStatsCache r st).1 = some s) ∧
    (∀ e, calculateStats r = .error e →
      initStatsCache r st = (st, .error e)) := by
  constructor
  · intro s hs
    refine ⟨by simp [initStatsCache, hs], by simp [initStatsCache, hs, getStats]⟩
  · intro e he
    simp [initStatsCache, he]

/-- Claim C6 witness: a successful initial run on a one-record file
populates the cache; a failing initial run propagates the error. -/
theorem initStatsCache_spec_witness :
    initStatsCache (.ok [⟨JVal.num 10⟩]) initialState =
      (⟨some ⟨1, JVal.num 10⟩, none⟩, .ok ()) ∧
    initStatsCache (.ioError "EACCES") initialState = (initialState, .error "EACCES") :=
  ⟨((initStatsCache_spec (.ok [⟨JVal.num 10⟩]) initialState).1 ⟨1, JVal.num 10⟩
      (by norm_num [calculateStats, statsOfItems, mean, JVal.add, JVal.div,
        JVal.toNumber])).1,
    (initStatsCache_spec (.ioError "EACCES") initialState).2 "EACCES" rfl⟩

/-- Claim C7: a read before the cache slot has ever been populated (the
module-load state, or any state with a `null` cache) makes the stats route
answer with status 503 rather than crash or serve a default zero-valued
Stats; once a value is cached the route serves it as JSON with status 200. -/
theorem uninitialized_read_503 :
    statsRoute initialState = .errorStatus 503 "Stats not initialized" ∧
    (∀ st : CacheState, getStats st = none →
      statsRoute st = .errorStatus 503 "Stats not initialized") ∧
    (∀ (st : CacheState) (s : Stats), getStats st = some s →
      statsRoute st = .json 200 s) := by
  refine ⟨rfl, ?_, ?_⟩
  · intro st h
    simp [statsRoute, h]
  · intro st s h
    simp [statsRoute, h]

/-- Claim C7 witness: a state with an empty cache slot (and a pending
timer) is answered with 503. -/
theorem uninitialized_read_503_witness :
    statsRoute ⟨none, some 7⟩ = .errorStatus 503 "Stats not initialized" :=
  uninitialized_read_503.2.1 ⟨none, some 7⟩ rfl

lemma statsInvariant_statsOfItems (items : List Record) :
    statsInvariant (statsOfItems items) := by
  unfold statsInvariant statsOfItems
  by_cases h : items.length = 0
  · simp [h]
  · simp only [if_neg h]
    refine ⟨by positivity, fun h0 => absurd h0 h, fun _ => ?_⟩
    refine ⟨items.map Record.price, by simp, ?_⟩
    simp [mean, List.length_map]

lemma cacheInv_handleFire (readAt : ℕ → ReadResult) (f : ℕ) (cache : Option Stats)
    (h : cacheInv cache) : cacheInv (handleFire readAt f cache) := by
  unfold handleFire
  cases hr : readAt f with
  | ok items =>
      simp only [calculateStats]
      intro s hs
      have hes := Option.some_inj.mp hs
      subst hes
      exact statsInvariant_statsOfItems items
  | ioError e =>
      simpa only [calculateStats] using h

lemma cacheInv_runEvents (readAt : ℕ → ReadResult) :
    ∀ (events : List (ℕ × String)) (cache : Option Stats) (timer : Option ℕ),
      cacheInv cache → cacheInv (runEvents readAt cache timer events).1.statsCache := by
  intro events
  induction events with
  | nil =>
      intro cache timer h
      cases timer with
      | none => simpa [runEvents] using h
      | some f => simpa [runEvents] using cacheInv_handleFire readAt f cache h
  | cons p rest ih =>
      intro cache timer h
      obtain ⟨t, ev⟩ := p
      cases timer with
      | none =>
          simpa only [runEvents] using ih cache (watchCallback ev t none) h
      | some f =>
          simp only [runEvents]
          by_cases hft : f ≤ t
          · rw [if_pos hft]
            exact ih _ _ (cacheInv_handleFire readAt f cache h)
          · rw [if_neg hft]
            exact ih cache _ h

/-- Claim C8: every Stats value the code can store in the cache slot — the
direct aggregator output, the value written by initialization, and the
value after any sequence of watcher events — satisfies the Stats
invariant: `total` is an integer `≥ 0`, a zero `total` comes with
`averagePrice = 0`, and a nonzero `total` comes with `averagePrice` equal
to the JS sum of the originating price list divided by `total`. -/
theorem cache_slot_invariant :
    (∀ items : List Record, statsInvariant (statsOfItems items)) ∧
    (∀ (r : ReadResult) (st : CacheState), cacheInv (getStats st) →
      cacheInv (getStats (initStatsCache r st).1)) ∧
    (∀ (readAt : ℕ → ReadResult) (events : List (ℕ × String))
        (cache : Option Stats) (timer : Option ℕ), cacheInv cache →
      cacheInv (getStats (runEvents readAt cache timer events).1)) := by
  refine ⟨statsInvariant_statsOfItems, ?_, ?_⟩
  · intro r st h
    unfold initStatsCache
    cases r with
    | ok items =>
        simp only [calculateStats, getStats]
        intro s hs
        have hes := Option.some_inj.mp hs
        subst hes
        exact statsInvariant_statsOfItems items
    | ioError e =>
        simpa only [calculateStats, getStats] using h
  · intro readAt events cache timer h
    exact cacheInv_runEvents readAt events cache timer h

/-- Claim C8 witness: starting from the empty (trivially good) cache, the
value cached by a fired recompute satisfies the invariant. -/
theorem cache_slot_invariant_witness :
    cacheInv (getStats (runEvents (fun _ => ReadResult.ok [⟨JVal.num 4⟩])
      none (some 7) []).1) :=
  cache_slot_invariant.2.2 (fun _ => ReadResult.ok [⟨JVal.num 4⟩]) [] none (some 7)
    (fun _ hs => nomatch hs)

/-- Claim C9: the aggregator is deterministic and free of feedback from
the mutable module state, as far as a functional embedding can express it:
the same read contents give the same result, a successful parse always
yields `statsOfItems` of the records (a function of the record sequence
alone), and the value a fired recompute stores does not depend on the
previous contents of the cache slot. -/
theorem calculateStats_pure :
    (∀ r₁ r₂ : ReadResult, r₁ = r₂ → calculateStats r₁ = calculateStats r₂) ∧
    (∀ items : List Record, calculateStats (.ok items) = .ok (statsOfItems items)) ∧
    (∀ (readAt : ℕ → ReadResult) (f : ℕ) (c₁ c₂ : Option Stats) (s : Stats),
      calculateStats (readAt f) = .ok s →
      handleFire readAt f c₁ = some s ∧ handleFire readAt f c₂ = some s) := by
  refine ⟨fun r₁ r₂ h => by rw [h], fun items => rfl, ?_⟩
  intro readAt f c₁ c₂ s hs
  constructor <;> simp [handleFire, hs]

/-- Claim C9 witness: the recompute fired on an empty file stores
`{total: 0, averagePrice: 0}` regardless of what the cache slot held. -/
theorem calculateStats_pure_witness :
    handleFire (fun _ => ReadResult.ok []) 5 none = some ⟨0, JVal.num 0⟩ ∧
    handleFire (fun _ => ReadResult.ok []) 5 (some ⟨9, JVal.nan⟩) = some ⟨0, JVal.num 0⟩ :=
  calculateStats_pure.2.2 (fun _ => ReadResult.ok []) 5 none (some ⟨9, JVal.nan⟩)
    ⟨0, JVal.num 0⟩ rfl

end StatsJS
